import Mathlib

/-!
Shallow embedding of the `superdan-t/physics` repository (Rust) in Lean 4.

Scalar values of type `f32` in the source are modelled as real numbers, so
the algebraic identities the source computes (translation, scaling about a
center, the base-2 exponential zoom factor) are exact.  Machine indices
(`usize`, `u32`) are modelled as `Nat`.

Source files embedded:
  - src/src/physics.rs    : `Pose`, `Dynamics`, `Circle`, `BodyId`, `Body`,
    `PhysicsEngine` with `new`, `get_object`, `add_object`, `update`.
  - src/src/model.rs      : graphics primitives `Circle`, `Rectangle`,
    `with_motion`, and the tagged union `Primitive`.  (The source refers to
    the body state type as `Motion`; physics.rs in this snapshot names the
    same position-carrying record `Pose`.  We use one type for both names.)
  - src/src/renderer.rs   : the renderer state observable to the simulation,
    namely the stored `view_region` and the sequence of primitives drawn in
    the current frame; `set_physics_region`, `get_physics_view_region`,
    `begin_new_frame`, `end_frame`, `draw_primitive`.
  - src/src/simulation.rs : `Object`, `Inputs`, `Simulation` with `update`,
    `add_object_with_model`, `add_object_with_model_at_pos`,
    `remove_object`, `draw_all`, `next_frame`.

Mutation through `&mut` references becomes explicit state passing; the
unconditional `.unwrap()` in `Simulation::draw_all` is modelled by `Option`
(`none` models the panic).
-/

namespace Phys

/-- A position and orientation in 2D space (physics.rs, `Pose`). -/
structure Pose where
  position : ℝ × ℝ
  orientation : ℝ

/-- The name `Motion` is how model.rs and simulation.rs refer to the body
state record that physics.rs names `Pose` in this snapshot; both expose the
same `position` field, so one Lean type serves both names. -/
abbrev Motion := Pose

/-- Movement properties of a physical object (physics.rs, `Dynamics`). -/
structure Dynamics where
  velocity : ℝ × ℝ

/-- A physics circle primitive (physics.rs, `Circle`). -/
structure Circle where
  origin : ℝ × ℝ
  radius : ℝ

/-- A unique identifier for a body in the physics engine (physics.rs,
`BodyId`, a wrapper around `usize`). -/
structure BodyId where
  val : ℕ
deriving DecidableEq

/-- One physical body in the physics simulation (physics.rs, `Body`). -/
structure Body where
  id : BodyId
  pose : Pose
  dynamics : Dynamics
  circle : Circle

/-- The root of the physics engine (physics.rs, `PhysicsEngine`): a vector
of bodies. -/
structure PhysicsEngine where
  objects : List Body

/-- Create a new physics engine (physics.rs, `PhysicsEngine::new`). -/
def PhysicsEngine.new : PhysicsEngine := { objects := [] }

/-- Bounds-checked body lookup (physics.rs, `PhysicsEngine::get_object`):
indexes the vector by the raw id value. -/
def PhysicsEngine.get_object (e : PhysicsEngine) (id : BodyId) : Option Body :=
  e.objects[id.val]?

/-- Add a new object to the physics engine (physics.rs,
`PhysicsEngine::add_object`): pushes a body whose id is the current vector
length, with default pose and dynamics and the given circle footprint.  The
Rust function returns `&mut Body` pointing at the pushed (last) element; the
model returns the new engine state, and callers read the id of the new body
as the pre-push length. -/
def PhysicsEngine.add_object (e : PhysicsEngine) (circle : Circle) : PhysicsEngine :=
  { objects := e.objects ++
      [{ id := ⟨e.objects.length⟩
         pose := { position := (0, 0), orientation := 0 }
         dynamics := { velocity := (0, 0) }
         circle := circle }] }

/-- Writing through the `&mut Body` returned by `add_object`: the caller in
simulation.rs assigns `body.motion.position = position` on the last (just
pushed) element of the vector. -/
def PhysicsEngine.set_last_position (e : PhysicsEngine) (p : ℝ × ℝ) : PhysicsEngine :=
  { objects := e.objects.dropLast ++
      (e.objects.getLast?.map fun b => [{ b with pose := { b.pose with position := p } }]).getD [] }

/-- Writing through `get_object_mut(id).unwrap().dynamics.velocity = v`
(main.rs): updates the velocity of the body stored at index `id`. -/
def PhysicsEngine.set_velocity (e : PhysicsEngine) (id : BodyId) (v : ℝ × ℝ) : PhysicsEngine :=
  { objects := e.objects.modify (fun b => { b with dynamics := { velocity := v } }) id.val }

/-- Update the physics engine state (physics.rs, `PhysicsEngine::update`):
for every body, `position += velocity * dt` componentwise, where `dt` is the
duration in seconds. -/
def PhysicsEngine.update (e : PhysicsEngine) (dt : ℝ) : PhysicsEngine :=
  { objects := e.objects.map fun b =>
      { b with pose :=
          { b.pose with position :=
              (b.pose.position.1 + b.dynamics.velocity.1 * dt,
               b.pose.position.2 + b.dynamics.velocity.2 * dt) } } }

end Phys

namespace Model

/-- An opaque color value (skia_safe::Color, a 32-bit ARGB word). -/
structure Color where
  argb : ℕ
deriving DecidableEq

/-- A circle with a center origin (model.rs, `primitive::Circle`). -/
structure Circle where
  origin : ℝ × ℝ
  radius : ℝ
  color : Color

/-- A rectangle with a corner origin (model.rs, `primitive::Rectangle`). -/
structure Rectangle where
  origin : ℝ × ℝ
  dimensions : ℝ × ℝ
  color : Color

/-- Offset a circle by a motion state (model.rs, `Circle::with_motion`):
the origin is translated by the position, radius and color are copied. -/
def Circle.with_motion (c : Circle) (m : Phys.Motion) : Circle :=
  { origin := (c.origin.1 + m.position.1, c.origin.2 + m.position.2)
    radius := c.radius
    color := c.color }

/-- Offset a rectangle by a motion state (model.rs,
`Rectangle::with_motion`): the origin is translated by the position,
dimensions and color are copied. -/
def Rectangle.with_motion (r : Rectangle) (m : Phys.Motion) : Rectangle :=
  { origin := (r.origin.1 + m.position.1, r.origin.2 + m.position.2)
    dimensions := r.dimensions
    color := r.color }

/-- A 2D primitive model (model.rs, `Primitive`). -/
inductive Primitive where
  | circle (c : Circle)
  | rectangle (r : Rectangle)

/-- The geometric origin carried by a primitive. -/
def Primitive.origin : Primitive → ℝ × ℝ
  | .circle c => c.origin
  | .rectangle r => r.origin

/-- The color carried by a primitive. -/
def Primitive.color : Primitive → Color
  | .circle c => c.color
  | .rectangle r => r.color

/-- The size data carried by a primitive: a radius for a circle, a
dimensions pair for a rectangle. -/
def Primitive.size : Primitive → ℝ ⊕ (ℝ × ℝ)
  | .circle c => Sum.inl c.radius
  | .rectangle r => Sum.inr r.dimensions

/-- Variant dispatch of `with_motion` over the two primitive shapes, as
`Renderer::draw_primitive` dispatches `draw_circle`/`draw_rectangle`. -/
def Primitive.with_motion : Primitive → Phys.Motion → Primitive
  | .circle c, m => .circle (c.with_motion m)
  | .rectangle r, m => .rectangle (r.with_motion m)

end Model

/-- The renderer state observable to the simulation (renderer.rs,
`SkiaRenderer`): the stored physics view region (the canvas matrix it
induces is write-only plumbing into the graphics library and is not
modelled), plus the sequence of primitives drawn since the frame began,
standing for the surface pixel buffer. -/
structure RendererState where
  view_region : (ℝ × ℝ) × (ℝ × ℝ)
  drawn : List Model.Primitive

/-- Install a view region (renderer.rs, `SkiaRenderer::set_physics_region`):
records `(p1, p2)` as the current view region (the matching canvas-matrix
update is plumbing into skia and not modelled). -/
def RendererState.set_physics_region (r : RendererState) (p1 p2 : ℝ × ℝ) : RendererState :=
  { r with view_region := (p1, p2) }

/-- Read back the view region (renderer.rs,
`SkiaRenderer::get_physics_view_region`). -/
def RendererState.get_physics_view_region (r : RendererState) : (ℝ × ℝ) × (ℝ × ℝ) :=
  r.view_region

/-- Draw a primitive shape (renderer.rs, `Renderer::draw_primitive`):
appends the drawn primitive to the frame trace. -/
def RendererState.draw_primitive (r : RendererState) (p : Model.Primitive) : RendererState :=
  { r with drawn := r.drawn ++ [p] }

/-- Prepare to draw a new frame (renderer.rs, `begin_new_frame`): clears
the surface, so the frame trace restarts empty. -/
def RendererState.begin_new_frame (r : RendererState) : RendererState :=
  { r with drawn := [] }

/-- Complete the current frame (renderer.rs, `end_frame`): flushes and
submits to the GPU, with no observable state change in the model. -/
def RendererState.end_frame (r : RendererState) : RendererState := r

/-- Modelled from the spec: the renderer operation
`draw_primitive_with_motion` is called by `Simulation::draw_all` but is
missing from the `Renderer` trait in src/src/renderer.rs.  Per the spec,
`draw_primitive` "Optionally accepts a per-call positional offset (when
objects carry independent motion) added to the primitive's own origin
before drawing - i.e., the rendered position is
`primitive.origin + object.position`".  The offset is applied with the
`with_motion` constructors of model.rs, then the primitive is drawn. -/
def RendererState.draw_primitive_with_motion (r : RendererState) (p : Model.Primitive)
    (m : Phys.Motion) : RendererState :=
  r.draw_primitive (p.with_motion m)

namespace Sim

/-- An object in the 2D simulation (simulation.rs, `Object`). -/
structure Object where
  graphics_model : Model.Primitive
  physics_body : Phys.BodyId
  id : ℕ

/-- Inputs to the simulation (simulation.rs, `Inputs`). -/
structure Inputs where
  view_region_scroll_speed : ℝ × ℝ
  view_region_scroll_speed_multiplier : ℝ
  view_region_zoom_speed : ℝ
  view_region_zoom_speed_multiplier : ℝ

/-- The `Default` impl for `Inputs` (simulation.rs). -/
def Inputs.default : Inputs :=
  { view_region_scroll_speed := (0, 0)
    view_region_scroll_speed_multiplier := 1
    view_region_zoom_speed := 0
    view_region_zoom_speed_multiplier := 1 }

/-- The root controller of the 2D simulation (simulation.rs,
`Simulation<Renderer>`; the single renderer implementation is the modelled
`RendererState`). -/
structure Simulation where
  objects : List Object
  object_uid_counter : ℕ
  dt_accum : ℝ
  renderer : RendererState
  physics : Phys.PhysicsEngine
  inputs : Inputs

/-- Create a new simulation (simulation.rs, `Simulation::new`). -/
def Simulation.new (renderer : RendererState) : Simulation :=
  { objects := []
    object_uid_counter := 0
    dt_accum := 0
    renderer := renderer
    physics := Phys.PhysicsEngine.new
    inputs := Inputs.default }

/-- Advance the simulation (simulation.rs, `Simulation::update`):
accumulates `dt`; if any scroll or zoom input is nonzero, translates both
corners of the current view region by `scroll_speed * dt * multiplier`,
scales the translated region about its center by
`delta_size = 1 / 2 ^ (zoom_speed * dt * zoom_multiplier)`, and installs
the result on the renderer; finally forwards `dt` to the physics engine. -/
noncomputable def Simulation.update (s : Simulation) (delta_time : ℝ) : Simulation :=
  let s1 : Simulation := { s with dt_accum := s.dt_accum + delta_time }
  let s2 : Simulation :=
    if s1.inputs.view_region_scroll_speed.1 ≠ 0 ∨ s1.inputs.view_region_scroll_speed.2 ≠ 0
        ∨ s1.inputs.view_region_zoom_speed ≠ 0 then
      let delta_x := s1.inputs.view_region_scroll_speed.1 * delta_time
        * s1.inputs.view_region_scroll_speed_multiplier
      let delta_y := s1.inputs.view_region_scroll_speed.2 * delta_time
        * s1.inputs.view_region_scroll_speed_multiplier
      let pq := s1.renderer.get_physics_view_region
      let p1 := (pq.1.1 + delta_x, pq.1.2 + delta_y)
      let p2 := (pq.2.1 + delta_x, pq.2.2 + delta_y)
      let z_speed := s1.inputs.view_region_zoom_speed * delta_time
        * s1.inputs.view_region_zoom_speed_multiplier
      let delta_size := 1 / (2 : ℝ) ^ z_speed
      let center := ((p1.1 + p2.1) / 2, (p1.2 + p2.2) / 2)
      let q1 := (center.1 + (p1.1 - center.1) * delta_size,
                 center.2 + (p1.2 - center.2) * delta_size)
      let q2 := (center.1 + (p2.1 - center.1) * delta_size,
                 center.2 + (p2.2 - center.2) * delta_size)
      { s1 with renderer := s1.renderer.set_physics_region q1 q2 }
    else s1
  { s2 with physics := s2.physics.update delta_time }

/-- Insert an object with a graphics model at a position (simulation.rs,
`Simulation::add_object_with_model_at_pos`): derives the physics circle
footprint (the circle itself for a circle model; for a rectangle, the
largest inscribed circle, centered at the rectangle center), adds the body,
writes the position through the returned body reference, and appends an
`Object` carrying the new body id and the next uid. -/
noncomputable def Simulation.add_object_with_model_at_pos (s : Simulation)
    (model : Model.Primitive) (position : ℝ × ℝ) : Simulation :=
  let footprint : Phys.Circle :=
    match model with
    | .circle cm => { origin := (0, 0), radius := cm.radius }
    | .rectangle rm =>
      { origin := (rm.origin.1 + rm.dimensions.1 / 2,
                   rm.origin.2 + rm.dimensions.2 / 2)
        radius := min (rm.dimensions.1 / 2) (rm.dimensions.2 / 2) }
  let body_id : Phys.BodyId := ⟨s.physics.objects.length⟩
  let physics := (s.physics.add_object footprint).set_last_position position
  { s with
    physics := physics
    objects := s.objects ++
      [{ graphics_model := model, physics_body := body_id, id := s.object_uid_counter }]
    object_uid_counter := s.object_uid_counter + 1 }

/-- Insert an object at the default position (simulation.rs,
`Simulation::add_object_with_model`). -/
noncomputable def Simulation.add_object_with_model (s : Simulation)
    (model : Model.Primitive) : Simulation :=
  s.add_object_with_model_at_pos model (0, 0)

/-- Remove an object from the simulation (simulation.rs,
`Simulation::remove_object`): retains exactly the objects whose id differs
from the argument. -/
def Simulation.remove_object (s : Simulation) (id : ℕ) : Simulation :=
  { s with objects := s.objects.filter fun object => object.id != id }

/-- The drawing loop of `Simulation::draw_all`: draws each object through
`draw_primitive_with_motion` with the motion state of its physics body;
`none` models the panic of the unconditional `.unwrap()` when a body lookup
comes back empty. -/
def draw_loop (physics : Phys.PhysicsEngine) :
    RendererState → List Object → Option RendererState
  | r, [] => some r
  | r, object :: rest =>
    match physics.get_object object.physics_body with
    | none => none
    | some body => draw_loop physics (r.draw_primitive_with_motion object.graphics_model body.pose) rest

/-- Draw all elements in the simulation (simulation.rs,
`Simulation::draw_all`). -/
def Simulation.draw_all (s : Simulation) : Option Simulation :=
  (draw_loop s.physics s.renderer s.objects).map fun r => { s with renderer := r }

/-- Complete all steps to render a new frame (simulation.rs,
`Simulation::next_frame`): begin_new_frame, draw_all, end_frame. -/
def Simulation.next_frame (s : Simulation) : Option Simulation :=
  ({ s with renderer := s.renderer.begin_new_frame } : Simulation).draw_all.map
    fun s2 => { s2 with renderer := s2.renderer.end_frame }

/-- States of the simulation reachable by the public operations: creation,
the object operations, `update`, `draw_all` and `next_frame` (when they do
not panic), plus the external mutations the demo main loop performs on the
public fields: setting inputs, installing a view region on the renderer,
and writing a body velocity through `get_object_mut`. -/
inductive Reachable : Simulation → Prop
  | new (r : RendererState) : Reachable (Simulation.new r)
  | add_at_pos {s : Simulation} (m : Model.Primitive) (p : ℝ × ℝ) :
      Reachable s → Reachable (s.add_object_with_model_at_pos m p)
  | add {s : Simulation} (m : Model.Primitive) :
      Reachable s → Reachable (s.add_object_with_model m)
  | remove {s : Simulation} (id : ℕ) :
      Reachable s → Reachable (s.remove_object id)
  | update {s : Simulation} (dt : ℝ) :
      Reachable s → Reachable (s.update dt)
  | draw_all {s s' : Simulation} :
      Reachable s → s.draw_all = some s' → Reachable s'
  | next_frame {s s' : Simulation} :
      Reachable s → s.next_frame = some s' → Reachable s'
  | set_inputs {s : Simulation} (i : Inputs) :
      Reachable s → Reachable { s with inputs := i }
  | set_region {s : Simulation} (p1 p2 : ℝ × ℝ) :
      Reachable s → Reachable { s with renderer := s.renderer.set_physics_region p1 p2 }
  | set_velocity {s : Simulation} (id : Phys.BodyId) (v : ℝ × ℝ) :
      Reachable s → Reachable { s with physics := s.physics.set_velocity id v }

/-- Validity of the body references held by the object list: each refers to
an index inside the physics body store. -/
def Simulation.bodies_valid (s : Simulation) : Prop :=
  ∀ o ∈ s.objects, o.physics_body.val < s.physics.objects.length

end Sim

/-- The end-to-end demo scenario of the spec: a fresh simulation over a
100 by 100 view region, one white circle object added at position
(25, 25), its physics body given velocity (0, 1) through
`get_object_mut` as in main.rs, then updated for 10 seconds. -/
noncomputable def demo_sim : Sim.Simulation :=
  let s0 := Sim.Simulation.new { view_region := ((0, 0), (100, 100)), drawn := [] }
  let s1 := s0.add_object_with_model_at_pos
    (Model.Primitive.circle { origin := (0, 0), radius := 2, color := ⟨0⟩ }) (25, 25)
  let s2 : Sim.Simulation := { s1 with physics := s1.physics.set_velocity ⟨0⟩ (0, 1) }
  s2.update 10

/-- The body backing the demo object after the 10 second update: position
(25 + 0 * 10, 25 + 1 * 10), that is (25, 35). -/
def demo_body : Phys.Body :=
  { id := ⟨0⟩
    pose := { position := ((25 : ℝ) + 0 * 10, (25 : ℝ) + 1 * 10), orientation := 0 }
    dynamics := { velocity := (0, 1) }
    circle := { origin := (0, 0), radius := 2 } }

/-- The view-navigation branch of Simulation::update as a function of the
inputs, the elapsed time and the current view region: translate both
corners by the scroll delta, then scale the translated region about its
center by `delta_size = 1 / 2 ^ z_speed`. -/
noncomputable def view_navigate (i : Sim.Inputs) (delta_time : ℝ)
    (pq : (ℝ × ℝ) × (ℝ × ℝ)) : (ℝ × ℝ) × (ℝ × ℝ) :=
  let delta_x := i.view_region_scroll_speed.1 * delta_time
    * i.view_region_scroll_speed_multiplier
  let delta_y := i.view_region_scroll_speed.2 * delta_time
    * i.view_region_scroll_speed_multiplier
  let p1 := (pq.1.1 + delta_x, pq.1.2 + delta_y)
  let p2 := (pq.2.1 + delta_x, pq.2.2 + delta_y)
  let z_speed := i.view_region_zoom_speed * delta_time * i.view_region_zoom_speed_multiplier
  let delta_size := 1 / (2 : ℝ) ^ z_speed
  let center := ((p1.1 + p2.1) / 2, (p1.2 + p2.2) / 2)
  ((center.1 + (p1.1 - center.1) * delta_size, center.2 + (p1.2 - center.2) * delta_size),
   (center.1 + (p2.1 - center.1) * delta_size, center.2 + (p2.2 - center.2) * delta_size))

/-- A concrete simulation state holding a zoom input of +1 with both
multipliers 1 over a 4 by 4 view region. -/
def zoom_sim : Sim.Simulation :=
  { objects := []
    object_uid_counter := 0
    dt_accum := 0
    renderer := { view_region := ((0, 0), (4, 4)), drawn := [] }
    physics := Phys.PhysicsEngine.new
    inputs :=
      { view_region_scroll_speed := (0, 0)
        view_region_scroll_speed_multiplier := 1
        view_region_zoom_speed := 1
        view_region_zoom_speed_multiplier := 1 } }

/-- A small concrete simulation state with two objects carrying ids 0 and
1, used to exercise removal. -/
def two_object_sim : Sim.Simulation :=
  { objects :=
      [{ graphics_model := Model.Primitive.circle { origin := (0, 0), radius := 1, color := ⟨0⟩ }
         physics_body := ⟨0⟩
         id := 0 },
       { graphics_model := Model.Primitive.circle { origin := (3, 3), radius := 1, color := ⟨1⟩ }
         physics_body := ⟨1⟩
         id := 1 }]
    object_uid_counter := 2
    dt_accum := 0
    renderer := { view_region := ((0, 0), (100, 100)), drawn := [] }
    physics := Phys.PhysicsEngine.new
    inputs := Sim.Inputs.default }

/-- The zoom demo state after one second of zooming in, with the zoom
input flipped to -1 as a key release/press would do. -/
noncomputable def zoom_sim_back : Sim.Simulation :=
  { zoom_sim.update 1 with inputs :=
      { view_region_scroll_speed := (0, 0)
        view_region_scroll_speed_multiplier := 1
        view_region_zoom_speed := -1
        view_region_zoom_speed_multiplier := 1 } }

/-! Helper lemmas shared by several claims. -/

/-- Adding an object appends one body whose id is the previous length. -/
theorem add_object_objects (e : Phys.PhysicsEngine) (c : Phys.Circle) :
    (e.add_object c).objects = e.objects ++
      [{ id := ⟨e.objects.length⟩
         pose := { position := (0, 0), orientation := 0 }
         dynamics := { velocity := (0, 0) }
         circle := c }] := rfl

/-- Setting the last position of a store that ends in a known body rewrites
exactly that body. -/
theorem set_last_position_concat (e : Phys.PhysicsEngine) (l : List Phys.Body)
    (b : Phys.Body) (p : ℝ × ℝ) (h : e.objects = l ++ [b]) :
    (e.set_last_position p).objects
      = l ++ [{ b with pose := { b.pose with position := p } }] := by
  simp [Phys.PhysicsEngine.set_last_position, h, List.dropLast_concat, List.getLast?_concat]

/-- The physics store of the state after `add_object_with_model_at_pos`:
the old store extended by the one new body. -/
theorem add_at_pos_physics_objects (s : Sim.Simulation) (model : Model.Primitive)
    (position : ℝ × ℝ) :
    (s.add_object_with_model_at_pos model position).physics.objects
      = s.physics.objects ++
        [{ id := ⟨s.physics.objects.length⟩
           pose := { position := position, orientation := 0 }
           dynamics := { velocity := (0, 0) }
           circle :=
             match model with
             | .circle cm => { origin := (0, 0), radius := cm.radius }
             | .rectangle rm =>
               { origin := (rm.origin.1 + rm.dimensions.1 / 2,
                            rm.origin.2 + rm.dimensions.2 / 2)
                 radius := min (rm.dimensions.1 / 2) (rm.dimensions.2 / 2) } }] := by
  cases model <;>
    exact set_last_position_concat _ _ _ _ (add_object_objects _ _)

/-- The object list of the state after `add_object_with_model_at_pos`: the
old list extended by the one new object, which references the new body. -/
theorem add_at_pos_objects (s : Sim.Simulation) (model : Model.Primitive)
    (position : ℝ × ℝ) :
    (s.add_object_with_model_at_pos model position).objects
      = s.objects ++
        [{ graphics_model := model, physics_body := ⟨s.physics.objects.length⟩
           id := s.object_uid_counter }] := by
  cases model <;> rfl

/-- Folding `add_object` over a list of circles appends bodies whose raw
ids continue the index sequence from the current store length. -/
theorem foldl_add_object_ids (circles : List Phys.Circle) (e : Phys.PhysicsEngine) :
    ((circles.foldl (fun e c => e.add_object c) e).objects.map fun b => b.id.val)
      = (e.objects.map fun b => b.id.val)
        ++ List.range' e.objects.length circles.length := by
  induction circles generalizing e with
  | nil => simp
  | cons c cs ih =>
    rw [List.foldl_cons, ih, List.length_cons, List.range'_succ]
    simp [Phys.PhysicsEngine.add_object]

/-- C1: for every body in the physics engine, for all dt greater or equal
zero and any current velocity v, after PhysicsEngine::update(dt) the
position of the body equals its previous position plus v * dt (in
seconds), exactly; constant-velocity integration is linear and exact, with
no clamping or other forces. -/
theorem C1_update_integrates_position (e : Phys.PhysicsEngine) (dt : ℝ) (h : 0 ≤ dt)
    (i : ℕ) (b : Phys.Body) (hb : e.objects[i]? = some b) :
    (e.update dt).objects[i]? = some
      { b with pose :=
          { b.pose with position :=
              (b.pose.position.1 + b.dynamics.velocity.1 * dt,
               b.pose.position.2 + b.dynamics.velocity.2 * dt) } } := by
  simp [Phys.PhysicsEngine.update, List.getElem?_map, hb]

/-- Witness for C1 at a concrete input: a single body at position (25, 25)
with velocity (0, 1), updated for 10 seconds, has position
(25 + 0 * 10, 25 + 1 * 10) = (25, 35). -/
theorem C1_update_integrates_position_witness :
    0 ≤ (10 : ℝ) ∧
    (Phys.PhysicsEngine.update
        { objects := [{ id := ⟨0⟩
                        pose := { position := (25, 25), orientation := 0 }
                        dynamics := { velocity := (0, 1) }
                        circle := { origin := (0, 0), radius := 2 } }] } 10).objects[0]?
      = some { id := ⟨0⟩
               pose := { position := ((25 : ℝ) + 0 * 10, (25 : ℝ) + 1 * 10), orientation := 0 }
               dynamics := { velocity := (0, 1) }
               circle := { origin := (0, 0), radius := 2 } } :=
  ⟨by norm_num,
   C1_update_integrates_position
     { objects := [{ id := ⟨0⟩
                     pose := { position := (25, 25), orientation := 0 }
                     dynamics := { velocity := (0, 1) }
                     circle := { origin := (0, 0), radius := 2 } }] }
     10 (by norm_num) 0 _ rfl⟩

/-- C4: PhysicsEngine::add_object assigns each new body an id equal to its
creation-order index: adding N objects to a fresh engine yields the raw id
sequence 0, 1, ..., N-1 (strictly increasing, unique, starting from 0),
and removal at the Simulation layer never touches the physics store, so an
id is never reused. -/
theorem C4_add_object_ids (circles : List Phys.Circle) :
    ((circles.foldl (fun e c => e.add_object c) Phys.PhysicsEngine.new).objects.map
        fun b => b.id.val) = List.range circles.length
    ∧ ∀ (s : Sim.Simulation) (id : ℕ), (s.remove_object id).physics = s.physics := by
  constructor
  · rw [foldl_add_object_ids, List.range_eq_range']
    simp [Phys.PhysicsEngine.new]
  · intro s id
    rfl

/-- C7: for every rectangle primitive added via
add_object_with_model_at_pos, the circle footprint of the backing physics
body is the largest inscribed circle: its radius equals
min(width, height) / 2 and its center is the geometric center of the
rectangle (origin plus half the dimensions in each axis). -/
theorem C7_rectangle_inscribed_circle (s : Sim.Simulation) (r : Model.Rectangle)
    (position : ℝ × ℝ) :
    ∃ b : Phys.Body,
      (s.add_object_with_model_at_pos (Model.Primitive.rectangle r) position).physics.objects
        = s.physics.objects ++ [b]
      ∧ b.circle.radius = min r.dimensions.1 r.dimensions.2 / 2
      ∧ b.circle.origin
          = (r.origin.1 + r.dimensions.1 / 2, r.origin.2 + r.dimensions.2 / 2) := by
  refine ⟨_, add_at_pos_physics_objects s (Model.Primitive.rectangle r) position, ?_, rfl⟩
  exact min_div_div_right (by norm_num) r.dimensions.1 r.dimensions.2

/-- C9: for every pair of points (p1, p2), installing them with
set_physics_region and reading back with get_physics_view_region returns
exactly (p1, p2). -/
theorem C9_set_then_get_region (r : RendererState) (p1 p2 : ℝ × ℝ) :
    (r.set_physics_region p1 p2).get_physics_view_region = (p1, p2) := rfl

/-- C10: PhysicsEngine::update(dt) mutates only body positions: the number
of bodies is unchanged, and the per-body id, circle footprint, velocity and
orientation sequences (in store order) are unchanged. -/
theorem C10_update_only_positions (e : Phys.PhysicsEngine) (dt : ℝ) :
    (e.update dt).objects.length = e.objects.length
    ∧ (e.update dt).objects.map (fun b => b.id) = e.objects.map (fun b => b.id)
    ∧ (e.update dt).objects.map (fun b => b.circle) = e.objects.map (fun b => b.circle)
    ∧ (e.update dt).objects.map (fun b => b.dynamics) = e.objects.map (fun b => b.dynamics)
    ∧ (e.update dt).objects.map (fun b => b.pose.orientation)
        = e.objects.map (fun b => b.pose.orientation) := by
  refine ⟨?_, ?_, ?_, ?_, ?_⟩ <;>
    simp [Phys.PhysicsEngine.update, List.map_map, Function.comp]

/-- Setting the last position does not change the number of bodies. -/
theorem set_last_position_length (e : Phys.PhysicsEngine) (p : ℝ × ℝ) :
    (e.set_last_position p).objects.length = e.objects.length := by
  rcases List.eq_nil_or_concat e.objects with h | ⟨L, b, h⟩ <;>
    simp [Phys.PhysicsEngine.set_last_position, h]

/-- Simulation::update leaves the object list unchanged. -/
theorem update_sim_objects (s : Sim.Simulation) (dt : ℝ) :
    (s.update dt).objects = s.objects := by
  simp [Sim.Simulation.update, apply_ite (Sim.Simulation.objects)]

/-- Simulation::update leaves the number of physics bodies unchanged. -/
theorem update_sim_physics_length (s : Sim.Simulation) (dt : ℝ) :
    (s.update dt).physics.objects.length = s.physics.objects.length := by
  simp [Sim.Simulation.update, Phys.PhysicsEngine.update,
    apply_ite (Sim.Simulation.physics)]

/-- A successful draw_all changes neither the object list nor the physics
engine. -/
theorem draw_all_eq_some {s s' : Sim.Simulation} (h : s.draw_all = some s') :
    s'.objects = s.objects ∧ s'.physics = s.physics := by
  rcases Option.map_eq_some'.mp h with ⟨r, _, rfl⟩
  exact ⟨rfl, rfl⟩

/-- A successful next_frame changes neither the object list nor the physics
engine. -/
theorem next_frame_eq_some {s s' : Sim.Simulation} (h : s.next_frame = some s') :
    s'.objects = s.objects ∧ s'.physics = s.physics := by
  rcases Option.map_eq_some'.mp h with ⟨s₂, h₂, rfl⟩
  rcases Option.map_eq_some'.mp h₂ with ⟨r, _, rfl⟩
  exact ⟨rfl, rfl⟩

/-- Adding an object preserves validity of the body references: old
references stay below the grown store length, and the new object refers to
the newly appended body. -/
theorem bodies_valid_add_at_pos {s : Sim.Simulation} (h : s.bodies_valid)
    (m : Model.Primitive) (p : ℝ × ℝ) :
    (s.add_object_with_model_at_pos m p).bodies_valid := by
  intro o ho
  rw [add_at_pos_objects] at ho
  rw [add_at_pos_physics_objects]
  simp only [List.mem_append, List.mem_singleton] at ho
  simp only [List.length_append, List.length_singleton]
  rcases ho with ho | rfl
  · exact Nat.lt_succ_of_lt (h o ho)
  · exact Nat.lt_succ_self _

/-- Every reachable simulation state satisfies the body-reference
invariant: each object refers to an index inside the physics store. -/
theorem reachable_bodies_valid {s : Sim.Simulation} (h : Sim.Reachable s) :
    s.bodies_valid := by
  induction h with
  | new r =>
    intro o ho
    simp [Sim.Simulation.new] at ho
  | add_at_pos m p _ ih =>
    exact bodies_valid_add_at_pos ih m p
  | add m _ ih =>
    exact bodies_valid_add_at_pos ih m (0, 0)
  | remove id _ ih =>
    intro o ho
    exact ih o (List.mem_filter.mp ho).1
  | update dt _ ih =>
    intro o ho
    rw [update_sim_objects] at ho
    rw [update_sim_physics_length]
    exact ih o ho
  | draw_all _ hs ih =>
    intro o ho
    obtain ⟨hobj, hphys⟩ := draw_all_eq_some hs
    rw [hobj] at ho
    rw [hphys]
    exact ih o ho
  | next_frame _ hs ih =>
    intro o ho
    obtain ⟨hobj, hphys⟩ := next_frame_eq_some hs
    rw [hobj] at ho
    rw [hphys]
    exact ih o ho
  | set_inputs i _ ih =>
    exact ih
  | set_region p1 p2 _ ih =>
    exact ih
  | set_velocity id v _ ih =>
    intro o ho
    simpa [Phys.PhysicsEngine.set_velocity, List.length_modify] using ih o ho

/-- If every object in the list refers to an index inside the physics
store, the drawing loop cannot hit an empty body lookup. -/
theorem draw_loop_isSome (phys : Phys.PhysicsEngine) :
    ∀ (objs : List Sim.Object) (r : RendererState),
    (∀ o ∈ objs, o.physics_body.val < phys.objects.length) →
    (Sim.draw_loop phys r objs).isSome = true := by
  intro objs
  induction objs with
  | nil => intro r _; rfl
  | cons o rest ih =>
    intro r h
    obtain ⟨b, hget⟩ : ∃ b, phys.get_object o.physics_body = some b :=
      ⟨_, List.getElem?_eq_getElem (h o (List.mem_cons_self o rest))⟩
    rw [Sim.draw_loop, hget]
    exact ih _ fun o' ho' => h o' (List.mem_cons_of_mem _ ho')

/-- C5: in every state reachable by the Simulation operations, every
object refers to a body present in the physics engine, so the lookup in
draw_all never yields an empty result and the unconditional unwrap cannot
abort: draw_all always succeeds. -/
theorem C5_draw_all_never_panics {s : Sim.Simulation} (h : Sim.Reachable s) :
    s.draw_all.isSome = true := by
  unfold Sim.Simulation.draw_all
  rw [Option.isSome_map']
  exact draw_loop_isSome s.physics s.objects s.renderer (reachable_bodies_valid h)

/-- Witness for C5: a concrete reachable state (one circle object added at
position (25, 25) to a fresh simulation), on which draw_all succeeds. -/
theorem C5_draw_all_never_panics_witness :
    Sim.Reachable ((Sim.Simulation.new { view_region := ((0, 0), (100, 100)), drawn := [] })
        |>.add_object_with_model_at_pos
          (Model.Primitive.circle { origin := (0, 0), radius := 2, color := ⟨0⟩ }) (25, 25))
    ∧ ((Sim.Simulation.new { view_region := ((0, 0), (100, 100)), drawn := [] })
        |>.add_object_with_model_at_pos
          (Model.Primitive.circle { origin := (0, 0), radius := 2, color := ⟨0⟩ })
          (25, 25)).draw_all.isSome = true :=
  ⟨Sim.Reachable.add_at_pos _ _ (Sim.Reachable.new _),
   C5_draw_all_never_panics (Sim.Reachable.add_at_pos _ _ (Sim.Reachable.new _))⟩

/-- Simulation::update always forwards dt to the physics engine,
independently of the view-navigation branch. -/
theorem update_sim_physics (s : Sim.Simulation) (dt : ℝ) :
    (s.update dt).physics = s.physics.update dt := by
  simp [Sim.Simulation.update, apply_ite (Sim.Simulation.physics)]

/-- The drawing loop over objects paired with their looked-up bodies draws
each graphics model offset by the pose of its body, in order. -/
theorem draw_loop_trace (phys : Phys.PhysicsEngine) :
    ∀ (objs : List Sim.Object) (bodies : List Phys.Body) (r : RendererState),
    List.Forall₂ (fun o b => phys.get_object o.physics_body = some b) objs bodies →
    Sim.draw_loop phys r objs = some
      { r with drawn := r.drawn ++
          ((objs.zip bodies).map fun ob => ob.1.graphics_model.with_motion ob.2.pose) } := by
  intro objs bodies r h
  induction h generalizing r with
  | nil => simp [Sim.draw_loop]
  | cons hab htail ih =>
    rw [Sim.draw_loop, hab]
    exact (ih _).trans (by
      simp [RendererState.draw_primitive_with_motion, RendererState.draw_primitive,
        List.append_assoc])

/-- C3: drawing an object renders its primitive offset by the current
position of its associated physics body.  With each object paired to its
looked-up body, draw_all succeeds and appends, for each object in order,
its graphics model offset through with_motion by the body pose; and for
every primitive and motion, the rendered origin is the primitive origin
plus the motion position, with size (radius or dimensions) and color
unchanged. -/
theorem C3_draw_offsets_primitive (s : Sim.Simulation) (bodies : List Phys.Body)
    (h : List.Forall₂ (fun o b => s.physics.get_object o.physics_body = some b)
      s.objects bodies) :
    (∃ s', s.draw_all = some s'
      ∧ s'.renderer.drawn = s.renderer.drawn ++
          ((s.objects.zip bodies).map fun ob => ob.1.graphics_model.with_motion ob.2.pose))
    ∧ ∀ (p : Model.Primitive) (m : Phys.Motion),
        (p.with_motion m).origin = (p.origin.1 + m.position.1, p.origin.2 + m.position.2)
        ∧ (p.with_motion m).size = p.size
        ∧ (p.with_motion m).color = p.color := by
  constructor
  · refine ⟨{ s with renderer :=
        { s.renderer with drawn := s.renderer.drawn ++
            ((s.objects.zip bodies).map
              fun ob => ob.1.graphics_model.with_motion ob.2.pose) } }, ?_, rfl⟩
    unfold Sim.Simulation.draw_all
    rw [draw_loop_trace s.physics s.objects bodies s.renderer h, Option.map_some']
  · intro p m
    cases p <;> exact ⟨rfl, rfl, rfl⟩

/-- Witness for C3 on the demo scenario of the spec: the single object was
created at (25, 25) with velocity (0, 1) and updated for 10 seconds, so its
body sits at (25 + 0 * 10, 25 + 1 * 10) = (25, 35), and drawing renders the
circle offset by this computed position rather than its static origin. -/
theorem C3_draw_offsets_primitive_witness :
    (List.Forall₂ (fun o b => demo_sim.physics.get_object o.physics_body = some b)
      demo_sim.objects [demo_body])
    ∧ ((∃ s', demo_sim.draw_all = some s'
        ∧ s'.renderer.drawn = demo_sim.renderer.drawn ++
            ((demo_sim.objects.zip [demo_body]).map
              fun ob => ob.1.graphics_model.with_motion ob.2.pose))
      ∧ ∀ (p : Model.Primitive) (m : Phys.Motion),
          (p.with_motion m).origin = (p.origin.1 + m.position.1, p.origin.2 + m.position.2)
          ∧ (p.with_motion m).size = p.size
          ∧ (p.with_motion m).color = p.color) := by
  have hobj : demo_sim.objects
      = [{ graphics_model :=
             Model.Primitive.circle { origin := (0, 0), radius := 2, color := ⟨0⟩ }
           physics_body := ⟨0⟩
           id := 0 }] := by
    rw [demo_sim, update_sim_objects]
    rfl
  have hget : demo_sim.physics.get_object ⟨0⟩ = some demo_body := by
    rw [demo_sim, update_sim_physics]
    rfl
  have h : List.Forall₂ (fun o b => demo_sim.physics.get_object o.physics_body = some b)
      demo_sim.objects [demo_body] := by
    rw [hobj]
    exact List.forall₂_cons.mpr ⟨hget, List.Forall₂.nil⟩
  exact ⟨h, C3_draw_offsets_primitive demo_sim [demo_body] h⟩

/-- With pairwise distinct object ids, filtering out one present id splits
the list around the unique matching object and removes exactly it. -/
theorem filter_ne_of_nodup (id : ℕ) :
    ∀ (l : List Sim.Object), (l.map Sim.Object.id).Nodup →
    (∃ o ∈ l, o.id = id) →
    ∃ l₁ o l₂, l = l₁ ++ o :: l₂ ∧ o.id = id
      ∧ l.filter (fun object => object.id != id) = l₁ ++ l₂ := by
  intro l
  induction l with
  | nil =>
    intro _ hex
    simp at hex
  | cons a l ih =>
    intro hnd hex
    rw [List.map_cons, List.nodup_cons] at hnd
    obtain ⟨ha, hl⟩ := hnd
    by_cases hid : a.id = id
    · refine ⟨[], a, l, rfl, hid, ?_⟩
      rw [List.filter_cons]
      have hfalse : (a.id != id) = false := by simp [hid]
      rw [hfalse]
      simp only [if_neg Bool.false_ne_true, List.nil_append]
      refine List.filter_eq_self.mpr fun o ho => ?_
      have hne : o.id ≠ id := fun hoid =>
        ha (List.mem_map.mpr ⟨o, ho, hoid.trans hid.symm⟩)
      simp [hne]
    · obtain ⟨o, ho, hoid⟩ := hex
      rcases List.mem_cons.mp ho with rfl | ho
      · exact absurd hoid hid
      · obtain ⟨l₁, o', l₂, hsplit, hoid', hfilter⟩ := ih hl ⟨o, ho, hoid⟩
        refine ⟨a :: l₁, o', l₂, by rw [hsplit]; rfl, hoid', ?_⟩
        rw [List.filter_cons]
        have : (a.id != id) = true := by simp [hid]
        rw [this]
        simp [hfilter]

/-- C8: Simulation::remove_object(id) removes exactly one entry (the one
whose id matches) when such an object exists, given the ids the Simulation
assigns are pairwise distinct; with no matching id the object list is
unchanged (a no-op, not an error); and in neither case is any physics Body
removed from the physics engine. -/
theorem C8_remove_object (s : Sim.Simulation) (id : ℕ)
    (hnd : (s.objects.map Sim.Object.id).Nodup) :
    ((∃ o ∈ s.objects, o.id = id) →
      ∃ l₁ o l₂, s.objects = l₁ ++ o :: l₂ ∧ o.id = id
        ∧ (s.remove_object id).objects = l₁ ++ l₂)
    ∧ ((∀ o ∈ s.objects, o.id ≠ id) → (s.remove_object id).objects = s.objects)
    ∧ (s.remove_object id).physics = s.physics := by
  refine ⟨fun hex => filter_ne_of_nodup id s.objects hnd hex, fun hno => ?_, rfl⟩
  exact List.filter_eq_self.mpr fun o ho => by simp [hno o ho]

/-- Witness for C8 on a concrete two-object state: removing id 1 splits the
list around the matching object and removes exactly it, a missing id is a
no-op, and the physics store is untouched. -/
theorem C8_remove_object_witness :
    (two_object_sim.objects.map Sim.Object.id).Nodup
    ∧ (((∃ o ∈ two_object_sim.objects, o.id = 1) →
          ∃ l₁ o l₂, two_object_sim.objects = l₁ ++ o :: l₂ ∧ o.id = 1
            ∧ (two_object_sim.remove_object 1).objects = l₁ ++ l₂)
        ∧ ((∀ o ∈ two_object_sim.objects, o.id ≠ 1) →
            (two_object_sim.remove_object 1).objects = two_object_sim.objects)
        ∧ (two_object_sim.remove_object 1).physics = two_object_sim.physics) := by
  have hnd : (two_object_sim.objects.map Sim.Object.id).Nodup := by decide
  exact ⟨hnd, C8_remove_object two_object_sim 1 hnd⟩

/-- The view region after Simulation::update: navigated when any scroll or
zoom input is nonzero, unchanged otherwise. -/
theorem update_view_region (s : Sim.Simulation) (dt : ℝ) :
    (s.update dt).renderer.view_region =
      if s.inputs.view_region_scroll_speed.1 ≠ 0 ∨ s.inputs.view_region_scroll_speed.2 ≠ 0
          ∨ s.inputs.view_region_zoom_speed ≠ 0
      then view_navigate s.inputs dt s.renderer.view_region
      else s.renderer.view_region := by
  by_cases hc : s.inputs.view_region_scroll_speed.1 ≠ 0
      ∨ s.inputs.view_region_scroll_speed.2 ≠ 0 ∨ s.inputs.view_region_zoom_speed ≠ 0
  · rw [if_pos hc]
    simp only [Sim.Simulation.update]
    rw [if_pos hc]
    rfl
  · rw [if_neg hc]
    simp only [Sim.Simulation.update]
    rw [if_neg hc]

/-- C2: when Simulation::update(dt) runs with any scroll or zoom input
nonzero, the region installed on the renderer is the previous region with
both corners translated by scroll_speed * dt * scroll_multiplier, then
scaled about the center of the translated region by the factor
2 ^ (-(zoom_speed * dt * zoom_multiplier)); consequently each extent of
the region is multiplied by that factor, so zoom speed +1 held for one
second (multiplier 1) halves the extent and -1 doubles it. -/
theorem C2_view_navigation (s : Sim.Simulation) (dt dx dy k cx cy : ℝ)
    (h : s.inputs.view_region_scroll_speed.1 ≠ 0 ∨ s.inputs.view_region_scroll_speed.2 ≠ 0
      ∨ s.inputs.view_region_zoom_speed ≠ 0)
    (hdx : dx = s.inputs.view_region_scroll_speed.1 * dt
      * s.inputs.view_region_scroll_speed_multiplier)
    (hdy : dy = s.inputs.view_region_scroll_speed.2 * dt
      * s.inputs.view_region_scroll_speed_multiplier)
    (hk : k = (2 : ℝ) ^ (-(s.inputs.view_region_zoom_speed * dt
      * s.inputs.view_region_zoom_speed_multiplier)))
    (hcx : cx = (s.renderer.view_region.1.1 + dx + (s.renderer.view_region.2.1 + dx)) / 2)
    (hcy : cy = (s.renderer.view_region.1.2 + dy + (s.renderer.view_region.2.2 + dy)) / 2) :
    (s.update dt).renderer.view_region =
      ((cx + (s.renderer.view_region.1.1 + dx - cx) * k,
        cy + (s.renderer.view_region.1.2 + dy - cy) * k),
       (cx + (s.renderer.view_region.2.1 + dx - cx) * k,
        cy + (s.renderer.view_region.2.2 + dy - cy) * k))
    ∧ (s.update dt).renderer.view_region.2.1 - (s.update dt).renderer.view_region.1.1
        = (s.renderer.view_region.2.1 - s.renderer.view_region.1.1) * k
    ∧ (s.update dt).renderer.view_region.2.2 - (s.update dt).renderer.view_region.1.2
        = (s.renderer.view_region.2.2 - s.renderer.view_region.1.2) * k := by
  have hknum : k = 1 / (2 : ℝ) ^ (s.inputs.view_region_zoom_speed * dt
      * s.inputs.view_region_zoom_speed_multiplier) := by
    rw [hk, Real.rpow_neg (by norm_num : (0:ℝ) ≤ 2), one_div]
  have hregion : (s.update dt).renderer.view_region
      = view_navigate s.inputs dt s.renderer.view_region := by
    rw [update_view_region, if_pos h]
  rw [hregion]
  simp only [view_navigate]
  subst hdx hdy hcx hcy hknum
  exact ⟨rfl, by ring, by ring⟩

/-- Witness for C2: the concrete state with zoom speed +1 and multipliers 1
over the region ((0,0),(4,4)), updated for one second, scales the region
about its center (2, 2) by 2 ^ (-1) = 1/2: each extent 4 - 0 becomes
(4 - 0) * 2 ^ (-1) = 2, a halving. -/
theorem C2_view_navigation_witness :
    (zoom_sim.inputs.view_region_scroll_speed.1 ≠ 0
      ∨ zoom_sim.inputs.view_region_scroll_speed.2 ≠ 0
      ∨ zoom_sim.inputs.view_region_zoom_speed ≠ 0)
    ∧ ((zoom_sim.update 1).renderer.view_region =
        (((0 + 0 * 1 * 1 + (4 + 0 * 1 * 1)) / 2
            + (0 + 0 * 1 * 1 - (0 + 0 * 1 * 1 + (4 + 0 * 1 * 1)) / 2)
              * (2 : ℝ) ^ (-(1 * 1 * 1 : ℝ)),
          (0 + 0 * 1 * 1 + (4 + 0 * 1 * 1)) / 2
            + (0 + 0 * 1 * 1 - (0 + 0 * 1 * 1 + (4 + 0 * 1 * 1)) / 2)
              * (2 : ℝ) ^ (-(1 * 1 * 1 : ℝ))),
         ((0 + 0 * 1 * 1 + (4 + 0 * 1 * 1)) / 2
            + (4 + 0 * 1 * 1 - (0 + 0 * 1 * 1 + (4 + 0 * 1 * 1)) / 2)
              * (2 : ℝ) ^ (-(1 * 1 * 1 : ℝ)),
          (0 + 0 * 1 * 1 + (4 + 0 * 1 * 1)) / 2
            + (4 + 0 * 1 * 1 - (0 + 0 * 1 * 1 + (4 + 0 * 1 * 1)) / 2)
              * (2 : ℝ) ^ (-(1 * 1 * 1 : ℝ))))
      ∧ (zoom_sim.update 1).renderer.view_region.2.1
            - (zoom_sim.update 1).renderer.view_region.1.1
          = ((4 : ℝ) - 0) * (2 : ℝ) ^ (-(1 * 1 * 1 : ℝ))
      ∧ (zoom_sim.update 1).renderer.view_region.2.2
            - (zoom_sim.update 1).renderer.view_region.1.2
          = ((4 : ℝ) - 0) * (2 : ℝ) ^ (-(1 * 1 * 1 : ℝ))) :=
  ⟨Or.inr (Or.inr one_ne_zero),
   C2_view_navigation zoom_sim 1 (0 * 1 * 1) (0 * 1 * 1)
     ((2 : ℝ) ^ (-(1 * 1 * 1 : ℝ)))
     ((0 + 0 * 1 * 1 + (4 + 0 * 1 * 1)) / 2)
     ((0 + 0 * 1 * 1 + (4 + 0 * 1 * 1)) / 2)
     (Or.inr (Or.inr one_ne_zero)) rfl rfl rfl rfl rfl⟩

/-- Navigating with zoom speed -z for the same duration undoes navigating
with zoom speed z, with scroll speed zero: the two scale factors are exact
reciprocals and the scaling center is preserved. -/
theorem view_navigate_zoom_inverse (z t sm zm : ℝ) (pq : (ℝ × ℝ) × (ℝ × ℝ)) :
    view_navigate
      { view_region_scroll_speed := (0, 0)
        view_region_scroll_speed_multiplier := sm
        view_region_zoom_speed := -z
        view_region_zoom_speed_multiplier := zm } t
      (view_navigate
        { view_region_scroll_speed := (0, 0)
          view_region_scroll_speed_multiplier := sm
          view_region_zoom_speed := z
          view_region_zoom_speed_multiplier := zm } t pq) = pq := by
  obtain ⟨⟨x1, y1⟩, x2, y2⟩ := pq
  have hw : (0 : ℝ) < (2 : ℝ) ^ (z * t * zm) := Real.rpow_pos_of_pos (by norm_num) _
  have hneg : (2 : ℝ) ^ (-z * t * zm) = ((2 : ℝ) ^ (z * t * zm))⁻¹ := by
    rw [show -z * t * zm = -(z * t * zm) by ring,
      Real.rpow_neg (by norm_num : (0:ℝ) ≤ 2)]
  simp only [view_navigate, hneg, Prod.mk.injEq]
  and_intros <;> (field_simp; ring)

/-- C6: zoom is a round trip.  Starting from any view region, running
Simulation::update with zoom speed z for duration t and then, after the
zoom input has been flipped to -z (scroll speed zero, multipliers fixed),
updating for duration t again returns the view region to its original
corners: the two scale factors are exact reciprocals and scaling about the
center preserves the center. -/
theorem C6_zoom_round_trip (s s' : Sim.Simulation) (z t sm zm : ℝ)
    (hs : s.inputs =
      { view_region_scroll_speed := (0, 0)
        view_region_scroll_speed_multiplier := sm
        view_region_zoom_speed := z
        view_region_zoom_speed_multiplier := zm })
    (hs' : s'.inputs =
      { view_region_scroll_speed := (0, 0)
        view_region_scroll_speed_multiplier := sm
        view_region_zoom_speed := -z
        view_region_zoom_speed_multiplier := zm })
    (hr : s'.renderer.view_region = (s.update t).renderer.view_region) :
    (s'.update t).renderer.view_region = s.renderer.view_region := by
  simp only [update_view_region, hs, hs', hr]
  by_cases hz : z = 0
  · simp [hz]
  · rw [if_pos (Or.inr (Or.inr (neg_ne_zero.mpr hz))), if_pos (Or.inr (Or.inr hz))]
    exact view_navigate_zoom_inverse z t sm zm s.renderer.view_region

/-- Witness for C6: starting from the region ((0,0),(4,4)) with zoom speed
+1, one second of update followed by one second with zoom speed -1 returns
the view region to ((0,0),(4,4)). -/
theorem C6_zoom_round_trip_witness :
    zoom_sim.inputs =
      { view_region_scroll_speed := (0, 0)
        view_region_scroll_speed_multiplier := 1
        view_region_zoom_speed := 1
        view_region_zoom_speed_multiplier := 1 }
    ∧ zoom_sim_back.inputs =
      { view_region_scroll_speed := (0, 0)
        view_region_scroll_speed_multiplier := 1
        view_region_zoom_speed := -1
        view_region_zoom_speed_multiplier := 1 }
    ∧ zoom_sim_back.renderer.view_region = (zoom_sim.update 1).renderer.view_region
    ∧ (zoom_sim_back.update 1).renderer.view_region = zoom_sim.renderer.view_region :=
  ⟨rfl, rfl, rfl, C6_zoom_round_trip zoom_sim zoom_sim_back 1 1 1 1 rfl rfl rfl⟩

/-- The object uid counter advances by one on insertion. -/
theorem add_at_pos_counter (s : Sim.Simulation) (m : Model.Primitive) (p : ℝ × ℝ) :
    (s.add_object_with_model_at_pos m p).object_uid_counter = s.object_uid_counter + 1 := by
  cases m <;> rfl

/-- Simulation::update leaves the object uid counter unchanged. -/
theorem update_sim_counter (s : Sim.Simulation) (dt : ℝ) :
    (s.update dt).object_uid_counter = s.object_uid_counter := by
  simp [Sim.Simulation.update, apply_ite (Sim.Simulation.object_uid_counter)]

/-- Insertion preserves the id discipline: all ids stay below the counter
and remain pairwise distinct, the new object taking the old counter value. -/
theorem ids_bound_nodup_add_at_pos {s : Sim.Simulation}
    (h : (∀ o ∈ s.objects, o.id < s.object_uid_counter)
      ∧ (s.objects.map Sim.Object.id).Nodup)
    (m : Model.Primitive) (p : ℝ × ℝ) :
    (∀ o ∈ (s.add_object_with_model_at_pos m p).objects,
        o.id < (s.add_object_with_model_at_pos m p).object_uid_counter)
    ∧ ((s.add_object_with_model_at_pos m p).objects.map Sim.Object.id).Nodup := by
  obtain ⟨hbound, hnd⟩ := h
  constructor
  · intro o ho
    rw [add_at_pos_objects] at ho
    rw [add_at_pos_counter]
    rcases List.mem_append.mp ho with ho | ho
    · exact Nat.lt_succ_of_lt (hbound o ho)
    · rw [List.mem_singleton.mp ho]
      exact Nat.lt_succ_self _
  · rw [add_at_pos_objects, List.map_append]
    refine List.Nodup.append hnd (List.nodup_singleton _) ?_
    intro a ha hb
    rw [List.map_singleton, List.mem_singleton] at hb
    obtain ⟨o, ho, hoid⟩ := List.mem_map.mp ha
    subst hb
    exact absurd (hoid ▸ hbound o ho) (lt_irrefl _)

/-- In every reachable simulation state, object ids are all below the uid
counter and pairwise distinct: the Nodup hypothesis of the removal theorem
holds for every state the Simulation can actually produce. -/
theorem reachable_ids_nodup {s : Sim.Simulation} (h : Sim.Reachable s) :
    (∀ o ∈ s.objects, o.id < s.object_uid_counter)
    ∧ (s.objects.map Sim.Object.id).Nodup := by
  induction h with
  | new r =>
    exact ⟨by simp [Sim.Simulation.new], by simp [Sim.Simulation.new]⟩
  | add_at_pos m p _ ih =>
    exact ids_bound_nodup_add_at_pos ih m p
  | add m _ ih =>
    exact ids_bound_nodup_add_at_pos ih m (0, 0)
  | remove id _ ih =>
    obtain ⟨hbound, hnd⟩ := ih
    refine ⟨fun o ho => hbound o (List.mem_filter.mp ho).1, ?_⟩
    exact hnd.sublist ((List.filter_sublist _).map Sim.Object.id)
  | update dt _ ih =>
    obtain ⟨hbound, hnd⟩ := ih
    constructor
    · intro o ho
      rw [update_sim_objects] at ho
      rw [update_sim_counter]
      exact hbound o ho
    · rw [update_sim_objects]
      exact hnd
  | draw_all _ hs ih =>
    rcases Option.map_eq_some'.mp hs with ⟨r, _, rfl⟩
    exact ih
  | next_frame _ hs ih =>
    rcases Option.map_eq_some'.mp hs with ⟨s₂, h₂, rfl⟩
    rcases Option.map_eq_some'.mp h₂ with ⟨r, _, rfl⟩
    exact ih
  | set_inputs i _ ih => exact ih
  | set_region p1 p2 _ ih => exact ih
  | set_velocity id v _ ih => exact ih
